import Mathlib

/-!
Shallow embedding of the shadowgit-mcp command-execution gateway:
the command tokenizer, security validator, repository resolver,
process invoker argument assembly and error classifier
(src/core/git-executor.ts, src/core/security-constants.ts,
src/core/repository-manager.ts, src/handlers/checkpoint-handler.ts),
together with theorems settling the frozen claims about them.

Filesystem access (fs.existsSync) is abstracted as a boolean oracle
passed explicitly; the subprocess outcome (execFileSync) is passed as an
explicit value of a result type.  JavaScript string primitives
(startsWith, toLowerCase, the \s class, trim) are embedded over the
character list of a Lean String; Node's POSIX path.join/path.normalize
are embedded directly.
-/

namespace ShadowGit

/-- JavaScript regular-expression class \s (also the character set trimmed
by String.prototype.trim): tab, LF, VT, FF, CR, space, NBSP, Ogham space,
the U+2000..U+200A range, line/paragraph separators, narrow NBSP,
mathematical space, ideographic space and the BOM. -/
def isJsWhitespace (c : Char) : Bool :=
  let n := c.toNat
  n == 0x09 || n == 0x0A || n == 0x0B || n == 0x0C || n == 0x0D || n == 0x20 ||
  n == 0xA0 || n == 0x1680 || (0x2000 ≤ n && n ≤ 0x200A) ||
  n == 0x2028 || n == 0x2029 || n == 0x202F || n == 0x205F || n == 0x3000 || n == 0xFEFF

/-- JavaScript String.prototype.startsWith: the search string's characters
are a prefix of the receiver's characters. -/
def jsStartsWith (s p : String) : Bool :=
  p.data.isPrefixOf s.data

/-- JavaScript String.prototype.endsWith. -/
def jsEndsWith (s p : String) : Bool :=
  p.data.isSuffixOf s.data

/-- JavaScript String.prototype.toLowerCase restricted to the simple
per-character mapping (ASCII letters and the other one-to-one cases). -/
def jsToLower (s : String) : String :=
  String.mk (s.data.map Char.toLower)

/-- JavaScript String.prototype.includes for a single character. -/
def jsIncludesChar (s : String) (c : Char) : Bool :=
  s.data.contains c

/-- JavaScript String.prototype.slice from a character index to the end. -/
def jsSliceFrom (s : String) (n : Nat) : String :=
  String.mk (s.data.drop n)

/-- The pieces of a string between separator characters (semantics of
String.splitOn with a one-character separator: empty pieces are kept,
the empty string yields one empty piece). -/
def splitChar (sep : Char) (s : String) : List String :=
  go s.data []
where
  go : List Char → List Char → List String
    | [], cur => [String.mk cur.reverse]
    | c :: rest, cur =>
        if c == sep then String.mk cur.reverse :: go rest []
        else go rest (c :: cur)

/-- The pieces joined with a separator string between consecutive pieces
(semantics of String.intercalate). -/
def joinSep (sep : String) : List String → String
  | [] => ""
  | [x] => x
  | x :: y :: rest => x ++ sep ++ joinSep sep (y :: rest)

/-- JavaScript String.prototype.trim on both ends, over the \s class. -/
def jsTrim (s : String) : String :=
  String.mk (((s.data.dropWhile isJsWhitespace).reverse.dropWhile isJsWhitespace).reverse)

/-- Characters removed by the sanitizing replace in GitExecutor.execute:
the regex class [\x00-\x08\x0B\x0C\x0E-\x1F\x7F] (git-executor.ts line 42).
Note that TAB (0x09), LF (0x0A) and CR (0x0D) are NOT in this class. -/
def isStrippedControl (c : Char) : Bool :=
  let n := c.toNat
  n ≤ 0x08 || n == 0x0B || n == 0x0C || (0x0E ≤ n && n ≤ 0x1F) || n == 0x7F

/-- The sanitized command string: every character of the stripped class
removed (git-executor.ts line 42). -/
def sanitize (s : String) : String :=
  String.mk (s.data.filter (fun c => !isStrippedControl c))

/-- Mutable state of the argument-parsing loop in GitExecutor.execute
(git-executor.ts lines 45-48): the token under construction, whether we
are inside a quoted span, the active quote character, and the tokens
emitted so far. -/
structure PState where
  current : String
  inQuotes : Bool
  quoteChar : Char
  args : List String

/-- One iteration of the parsing loop for a character that is not an
escaped quote (git-executor.ts lines 54-72, all branches except the
backslash-quote branch). -/
def stepNoEscape (c : Char) (st : PState) : PState :=
  if !st.inQuotes && (c == '"' || c == '\'') then
    { st with inQuotes := true, quoteChar := c }
  else if st.inQuotes && c == st.quoteChar then
    { st with inQuotes := false, quoteChar := Char.ofNat 0 }
  else if !st.inQuotes && isJsWhitespace c then
    if st.current == "" then st
    else { st with current := "", args := st.args ++ [st.current] }
  else
    { st with current := st.current.push c }

/-- The character loop of GitExecutor.execute (git-executor.ts lines
50-76) over the sanitized character list.  The two-character pattern
realises the nextChar lookahead: inside quotes, a backslash immediately
followed by the active quote character appends one literal quote
character and skips it; at the end the pending token, if non-empty, is
flushed. -/
def parseLoop : List Char → PState → List String
  | [], st => if st.current == "" then st.args else st.args ++ [st.current]
  | [c], st => parseLoop [] (stepNoEscape c st)
  | c :: c2 :: rest, st =>
      if st.inQuotes && c == '\\' && c2 == st.quoteChar then
        parseLoop rest { st with current := st.current.push st.quoteChar }
      else
        parseLoop (c2 :: rest) (stepNoEscape c st)

/-- The tokenizer applied to a raw external command string: sanitize,
then run the parsing loop from the initial state (empty token, not in
quotes, no tokens). -/
def tokenize (s : String) : List String :=
  parseLoop (sanitize s).data ⟨"", false, Char.ofNat 0, []⟩

/-- Read-only commands allowed for external callers
(security-constants.ts lines 6-11), in the insertion order of the set
literal. -/
def SAFE_COMMANDS : List String :=
  ["log", "show", "diff", "status",
   "describe", "rev-parse", "ls-files",
   "ls-tree", "cat-file", "show-branch", "shortlog",
   "rev-list", "blame"]

/-- Dangerous argument patterns that are always blocked
(security-constants.ts lines 14-24). -/
def DANGEROUS_PATTERNS : List String :=
  ["--upload-pack", "--receive-pack", "--exec", "-c", "--config", "-e",
   "--git-dir", "--work-tree", "-C"]

/-- isDangerousArg (security-constants.ts lines 27-32): the lowercased
argument equals a pattern as written, or starts with the pattern as
written followed by an equals sign. -/
def isDangerousArg (arg : String) : Bool :=
  let lowerArg := jsToLower arg
  DANGEROUS_PATTERNS.any (fun pattern =>
    lowerArg == pattern || jsStartsWith lowerArg (pattern ++ "="))

/-- Shared constant SHADOWGIT_DIR (constants.ts). -/
def SHADOWGIT_DIR : String := ".shadowgit.git"

/-- Shared constant MAX_COMMAND_LENGTH (constants.ts). -/
def MAX_COMMAND_LENGTH : Nat := 1000

namespace NodePath

/-- One segment step of Node's normalizeString: "" and "." are dropped;
".." pops the previous segment unless there is none or it is itself ".."
(then it is kept only when above-root segments are allowed); any other
segment is kept.  The accumulator holds the kept segments reversed. -/
def normStep (allowAboveRoot : Bool) (acc : List String) (seg : String) : List String :=
  if seg == "" || seg == "." then acc
  else if seg == ".." then
    match acc with
    | a :: rest => if a != ".." then rest else if allowAboveRoot then seg :: acc else acc
    | [] => if allowAboveRoot then [seg] else []
  else seg :: acc

/-- Node's normalizeString over the slash-separated segments. -/
def normalizeString (p : String) (allowAboveRoot : Bool) : String :=
  joinSep "/" (((splitChar '/' p).foldl (normStep allowAboveRoot) []).reverse)

/-- Node's POSIX path.normalize. -/
def normalize (p : String) : String :=
  if p == "" then "."
  else
    let isAbs := jsStartsWith p "/"
    let trailingSep := jsEndsWith p "/"
    let q := normalizeString p (!isAbs)
    if q == "" then
      if isAbs then "/" else if trailingSep then "./" else "."
    else
      let q2 := if trailingSep then q ++ "/" else q
      if isAbs then "/" ++ q2 else q2

/-- Node's POSIX path.join restricted to two arguments: concatenate the
non-empty parts with a slash and normalize; all-empty input joins to the
current directory. -/
def join2 (a b : String) : String :=
  let joined := if a == "" then b else if b == "" then a else a ++ "/" ++ b
  if joined == "" then "." else normalize joined

end NodePath

/-- The command argument of GitExecutor.execute: either a raw string
(external callers) or a pre-tokenized argument vector (internal callers). -/
inductive Command where
  | str (s : String)
  | arr (a : List String)

/-- The argument vector an invocation carries: the pre-tokenized vector,
or the tokenization of the string form. -/
def commandTokens : Command → List String
  | .arr a => a
  | .str s => tokenize s

/-- Rejection text for a dangerous argument (git-executor.ts line 88). -/
def dangerousArgsMsg : String := "Error: Command contains potentially dangerous arguments."

/-- Rejection text for an empty argument vector (git-executor.ts line 80). -/
def noCommandMsg : String := "Error: No command provided."

/-- Rejection text for an over-long external command string
(git-executor.ts line 38). -/
def tooLongMsg : String :=
  "Error: Command too long (max " ++ toString MAX_COMMAND_LENGTH ++ " characters)."

/-- Rejection text for a non-whitelisted external subcommand
(git-executor.ts lines 94-96): the tail after the subcommand name. -/
def whitelistSuffix : String :=
  "' is not allowed. Only read-only commands are permitted.\n\nAllowed commands: " ++
    joinSep ", " SAFE_COMMANDS

/-- Rejection text for a non-whitelisted external subcommand, continued:
the full message names the subcommand between quotes. -/
def whitelistMsg (gitCommand : String) : String :=
  "Error: Command '" ++ gitCommand ++ whitelistSuffix

/-- Rejection text for a missing shadow-store marker directory
(git-executor.ts line 103). -/
def notShadowRepoMsg (gitDir : String) : String :=
  "Error: Not a ShadowGit repository. The .shadowgit.git directory was not found at " ++ gitDir

/-- The validation stage of GitExecutor.execute over an argument vector
(git-executor.ts lines 79-113): empty check, dangerous-argument check
(always), whitelist check (external only), shadow-store marker check,
and assembly of the argument vector handed to the git binary.
gitDirExists abstracts fs.existsSync at path.join(repoPath, SHADOWGIT_DIR).
Except.error is a returned rejection (the binary is never invoked);
Except.ok is the full argv passed to execFileSync after the fixed
location pointers. -/
def validate (args : List String) (repoPath : String) (isInternal : Bool)
    (gitDirExists : Bool) : Except String (List String) :=
  if args.isEmpty then .error noCommandMsg
  else
    let gitCommand := args.headD ""
    if args.any isDangerousArg then .error dangerousArgsMsg
    else if !isInternal && !(SAFE_COMMANDS.contains gitCommand) then
      .error (whitelistMsg gitCommand)
    else
      let gitDir := NodePath.join2 repoPath SHADOWGIT_DIR
      if !gitDirExists then .error (notShadowRepoMsg gitDir)
      else .ok (("--git-dir=" ++ gitDir) :: ("--work-tree=" ++ repoPath) :: args)

/-- GitExecutor.execute up to process invocation (git-executor.ts lines
23-113): array commands go straight to validation; string commands are
length-checked (external callers only) and tokenized first. -/
def execute (command : Command) (repoPath : String) (isInternal : Bool)
    (gitDirExists : Bool) : Except String (List String) :=
  match command with
  | .arr a => validate a repoPath isInternal gitDirExists
  | .str s =>
      if !isInternal && decide (s.length > MAX_COMMAND_LENGTH) then .error tooLongMsg
      else validate (tokenize s) repoPath isInternal gitDirExists

/-- The error object caught from a failed execFileSync, as read by the
classifier (git-executor.ts lines 129-151): the code and signal
properties, presence of the stderr/stdout/status properties, the
stringified stderr/stdout contents (empty when absent or falsy), the
message property (empty when falsy) and the string conversion used by
the final fallback interpolation. -/
structure ExecError where
  code : Option String
  signal : Option String
  hasStderr : Bool
  stderr : String
  hasStdout : Bool
  stdout : String
  hasStatus : Bool
  message : String
  asString : String
deriving DecidableEq

/-- A thrown value: an object (inspected field by field) or a non-object
value with its string conversion. -/
inductive Caught where
  | obj (e : ExecError)
  | nonObj (s : String)
deriving DecidableEq

/-- Timeout message (git-executor.ts line 135). -/
def timeoutMsg (timeoutMs : Nat) : String :=
  "Error: Command timed out after " ++ toString timeoutMs ++ "ms."

/-- Structured process-failure message (git-executor.ts lines 144-147):
the template has a line for the message and one line per optional part. -/
def structuredMsg (e : ExecError) : String :=
  "Error executing git command:\n" ++
    (if e.message == "" then "Unknown error" else e.message) ++ "\n" ++
    (if e.stderr != "" then "\nError output:\n" ++ e.stderr else "") ++ "\n" ++
    (if e.stdout != "" then "\nPartial output:\n" ++ e.stdout else "")

/-- The error classifier of GitExecutor.execute (git-executor.ts lines
129-151), checked in order and terminal on first match: timeout (code
ETIMEDOUT or signal SIGTERM), then structured failure (a stderr, stdout
or status property present), then the generic fallback. -/
def classifyCaught (timeoutMs : Nat) : Caught → String
  | .obj e =>
      if e.code == some "ETIMEDOUT" || e.signal == some "SIGTERM" then timeoutMsg timeoutMs
      else if e.hasStderr || e.hasStdout || e.hasStatus then structuredMsg e
      else "Error: " ++ e.asString
  | .nonObj s => "Error: " ++ s

/-- Outcome of the execFileSync call: captured output, or a thrown value. -/
inductive ProcResult where
  | ok (output : String)
  | err (e : Caught)
deriving DecidableEq

/-- Success rendering (git-executor.ts line 128): output or the
placeholder when the output string is empty (falsy). -/
def renderSuccess (output : String) : String :=
  if output == "" then "(empty output)" else output

/-- GitExecutor.execute end to end: the validation stage, then — only
when validation produced an argv for the binary — the rendering of the
subprocess outcome passed in as a value. -/
def executeFull (command : Command) (repoPath : String) (isInternal : Bool)
    (gitDirExists : Bool) (pres : ProcResult) (timeoutMs : Nat) : String :=
  match execute command repoPath isInternal gitDirExists with
  | .error m => m
  | .ok _ =>
      match pres with
      | .ok out => renderSuccess out
      | .err e => classifyCaught timeoutMs e

/-- A configured repository entry (types.ts). -/
structure Repository where
  name : String
  path : String
deriving DecidableEq

/-- RepositoryManager.findRepository (repository-manager.ts lines 47-49):
first entry whose name equals the input exactly. -/
def findRepository (repos : List Repository) (name : String) : Option Repository :=
  repos.find? (fun r => r.name == name)

/-- RepositoryManager.resolveRepoPath (repository-manager.ts lines
54-131).  homeDir abstracts os.homedir(); fexists abstracts
fs-level existence (file-utils fileExists).  Returns the resolved
absolute path or none (null). -/
def resolveRepoPath (repos : List Repository) (homeDir : String)
    (fexists : String → Bool) (repoNameOrPath : String) : Option String :=
  if repoNameOrPath == "" then none
  else
    match findRepository repos repoNameOrPath with
    | some knownRepo =>
        let repoPath :=
          if jsStartsWith knownRepo.path "~" then
            if knownRepo.path == "~" then homeDir
            else if jsStartsWith knownRepo.path "~/" then
              NodePath.join2 homeDir (jsSliceFrom knownRepo.path 2)
            else knownRepo.path
          else knownRepo.path
        let shadowgitPath := NodePath.join2 repoPath SHADOWGIT_DIR
        if fexists shadowgitPath then some repoPath else none
    | none =>
        let isPath := jsStartsWith repoNameOrPath "/" ||
                      jsStartsWith repoNameOrPath "~" ||
                      jsIncludesChar repoNameOrPath ':' ||
                      jsStartsWith repoNameOrPath "\\\\"
        if isPath then
          let step1 : Option String :=
            if jsStartsWith repoNameOrPath "~" then
              if repoNameOrPath == "~" then some homeDir
              else if jsStartsWith repoNameOrPath "~/" then
                some (NodePath.join2 homeDir (jsSliceFrom repoNameOrPath 2))
              else none
            else some repoNameOrPath
          match step1 with
          | none => none
          | some rp0 =>
              let resolvedPath := NodePath.normalize rp0
              if !(jsStartsWith resolvedPath "/") then none
              else if fexists resolvedPath then
                if fexists (NodePath.join2 resolvedPath SHADOWGIT_DIR) then some resolvedPath
                else none
              else none
        else none


/-- The no-changes guard of CheckpointHandler.handle
(checkpoint-handler.ts line 84): the status output is falsy (empty),
trims to the empty string, or is the empty-output placeholder. -/
def noChangesGuard (statusOutput : String) : Bool :=
  statusOutput == "" || jsTrim statusOutput == "" || statusOutput == "(empty output)"

/-- Where the checkpoint sequence (status, add, commit, show) ends:
aborted before staging, aborted after staging, aborted after the commit
attempt, or completed. -/
inductive CkptOutcome where
  | errNoChanges
  | errStage (msg : String)
  | errCommit (msg : String)
  | success (commitOutput showOutput : String)
deriving DecidableEq

/-- The guard structure of CheckpointHandler.handle after repository
resolution (checkpoint-handler.ts lines 82-163), abstracted over the
four step outputs: the no-changes guard on the status output, then the
prefix guard on the add output, then the prefix guard on the commit
output. -/
def checkpointFlow (statusOutput addOutput commitOutput showOutput : String) : CkptOutcome :=
  if noChangesGuard statusOutput then .errNoChanges
  else if jsStartsWith addOutput "Error:" then .errStage addOutput
  else if jsStartsWith commitOutput "Error:" then .errCommit commitOutput
  else .success commitOutput showOutput

/-- Whether an outcome of the checkpoint flow lies past the commit
invocation: the commit step ran iff neither earlier guard fired. -/
def reachesCommit : CkptOutcome → Bool
  | .errNoChanges => false
  | .errStage _ => false
  | .errCommit _ => true
  | .success _ _ => true

/-- The dangerous-token matcher exactly as the specification words it:
a token matches a pattern when, compared case-insensitively, it equals
the pattern exactly or starts with the pattern followed by an equals
sign.  Stated with both sides lowered; compared below with the source's
isDangerousArg, which lowers only the token. -/
def specDangerous (t : String) : Bool :=
  DANGEROUS_PATTERNS.any (fun p =>
    jsToLower t == jsToLower p || jsStartsWith (jsToLower t) (jsToLower p ++ "="))

/-- The control-character stripping as claim C4 words it: every
character with code below 0x20, with no exclusions, and 0x7F. -/
def specStrip (s : String) : String :=
  String.mk (s.data.filter (fun c => !(decide (c.toNat < 0x20) || c.toNat == 0x7F)))

/-- The home-marker expansion rule as the specification words it for the
known-name branch: expand a leading tilde only when the tilde is the
whole string or is immediately followed by a path separator; otherwise
leave the configured path untouched. -/
def specExpandTilde (homeDir p : String) : String :=
  if p == "~" then homeDir
  else if jsStartsWith p "~/" then NodePath.join2 homeDir (jsSliceFrom p 2)
  else p

/-- String append acts as list append on the character data. -/
theorem string_data_append (a b : String) : (a ++ b).data = a.data ++ b.data := rfl

/-- Every token the specification's matcher flags is flagged by the
source's isDangerousArg: the one pattern the source compares with an
upper-case letter, -C, is caught through the lower-case pattern -c that
is also in the list. -/
theorem specDangerous_imp_isDangerousArg (t : String) (h : specDangerous t = true) :
    isDangerousArg t = true := by
  have e1 : jsToLower "--upload-pack" = "--upload-pack" := rfl
  have e2 : jsToLower "--receive-pack" = "--receive-pack" := rfl
  have e3 : jsToLower "--exec" = "--exec" := rfl
  have e4 : jsToLower "-c" = "-c" := rfl
  have e5 : jsToLower "--config" = "--config" := rfl
  have e6 : jsToLower "-e" = "-e" := rfl
  have e7 : jsToLower "--git-dir" = "--git-dir" := rfl
  have e8 : jsToLower "--work-tree" = "--work-tree" := rfl
  have e9 : jsToLower "-C" = "-c" := rfl
  simp only [specDangerous, DANGEROUS_PATTERNS, List.any_cons, List.any_nil,
    Bool.or_false, Bool.or_eq_true, e1, e2, e3, e4, e5, e6, e7, e8, e9] at h
  simp only [isDangerousArg, DANGEROUS_PATTERNS, List.any_cons, List.any_nil,
    Bool.or_false, Bool.or_eq_true]
  tauto

/-- A vector with a dangerous argument is rejected by the validation
stage with the dangerous-arguments text. -/
theorem validate_error_of_danger (args : List String) (rp : String) (ii gd : Bool)
    (hd : args.any isDangerousArg = true) :
    validate args rp ii gd = .error dangerousArgsMsg := by
  have hne : args.isEmpty = false := by
    cases args with
    | nil => simp at hd
    | cons a l => rfl
  unfold validate
  simp [hne, hd]

/-- A non-empty external vector with no dangerous argument and a head
outside the whitelist is rejected by the validation stage with the
whitelist text naming that head. -/
theorem validate_error_of_whitelist (args : List String) (rp : String) (gd : Bool)
    (hne : args.isEmpty = false) (hd : args.any isDangerousArg = false)
    (hw : SAFE_COMMANDS.contains (args.headD "") = false) :
    validate args rp false gd = .error (whitelistMsg (args.headD "")) := by
  simp only [validate, hne, hd, hw, Bool.false_eq_true, if_false, Bool.not_false,
    Bool.true_and, eq_self_iff_true, if_true]

/-- An argument vector the validation stage accepts is passed to the
binary behind exactly the two location pointers derived from the
resolved repository path. -/
theorem validate_ok_shape (args : List String) (rp : String) (ii gd : Bool)
    (argv : List String) (h : validate args rp ii gd = .ok argv) :
    argv = ("--git-dir=" ++ NodePath.join2 rp SHADOWGIT_DIR) ::
           ("--work-tree=" ++ rp) :: args := by
  simp only [validate] at h
  repeat' split at h
  all_goals simp_all

/-- C1: for every invocation, regardless of trust level, if any token of
the argument vector matches a dangerous pattern of the fixed blacklist
under the case-insensitive exact-or-equals-prefix rule, then execute
returns a rejection text and the git binary is never invoked (the result
is Except.error, never an argv for the binary). -/
theorem C1_blacklist_always_rejects (c : Command) (repoPath : String)
    (isInternal gitDirExists : Bool)
    (h : (commandTokens c).any specDangerous = true) :
    ∃ msg, execute c repoPath isInternal gitDirExists = .error msg := by
  have hd : (commandTokens c).any isDangerousArg = true := by
    rw [List.any_eq_true] at h ⊢
    obtain ⟨a, ha, hsp⟩ := h
    exact ⟨a, ha, specDangerous_imp_isDangerousArg a hsp⟩
  cases c with
  | arr a =>
      exact ⟨_, validate_error_of_danger a repoPath isInternal gitDirExists hd⟩
  | str str_cmd =>
      have hd2 : (tokenize str_cmd).any isDangerousArg = true := hd
      simp only [execute]
      by_cases hlen : (!isInternal && decide (str_cmd.length > MAX_COMMAND_LENGTH)) = true
      · rw [if_pos hlen]
        exact ⟨_, rfl⟩
      · rw [if_neg hlen]
        exact ⟨_, validate_error_of_danger (tokenize str_cmd) repoPath isInternal gitDirExists hd2⟩

/-- Witness for C1: an internal invocation whose second token matches
the blacklisted pattern for the repository-location override in upper
case is rejected. -/
theorem C1_witness :
    (commandTokens (.arr ["log", "--GIT-DIR=/tmp/x"])).any specDangerous = true ∧
    ∃ msg, execute (.arr ["log", "--GIT-DIR=/tmp/x"]) "/repo" true true = .error msg :=
  ⟨by decide,
   C1_blacklist_always_rejects (.arr ["log", "--GIT-DIR=/tmp/x"]) "/repo" true true (by decide)⟩

/-- C2 counterexample: the blacklist check runs before the whitelist
check, so an external vector whose head is outside the whitelist but
which also carries a dangerous token is rejected with the generic
dangerous-arguments text, which does not name the offending subcommand
(push does not occur in it). -/
theorem C2_counterexample :
    SAFE_COMMANDS.contains "push" = false ∧
    execute (.arr ["push", "--git-dir=/x"]) "/repo" false true = .error dangerousArgsMsg ∧
    ¬ "push".data <:+: dangerousArgsMsg.data :=
  ⟨rfl, rfl, by decide⟩

/-- C2 as amended: an external invocation with a non-empty vector whose
head is outside the whitelist is always rejected without invoking the
binary; when no token matches the dangerous blacklist (checked first),
the rejection is the whitelist text and it names the offending
subcommand; and the internal pre-tokenized commit vector passes
validation and reaches the invoker. -/
theorem C2_whitelist_rejects (repoPath : String) (gitDirExists : Bool) (args : List String)
    (hne : args ≠ []) (hw : SAFE_COMMANDS.contains (args.headD "") = false) :
    (∃ msg, execute (.arr args) repoPath false gitDirExists = .error msg) ∧
    ((∀ a ∈ args, isDangerousArg a = false) →
      execute (.arr args) repoPath false gitDirExists = .error (whitelistMsg (args.headD "")) ∧
      (args.headD "").data <:+: (whitelistMsg (args.headD "")).data) ∧
    execute (.arr ["commit", "-m", "fix"]) repoPath true true =
      .ok (("--git-dir=" ++ NodePath.join2 repoPath SHADOWGIT_DIR) ::
           ("--work-tree=" ++ repoPath) :: ["commit", "-m", "fix"]) := by
  have hie : args.isEmpty = false := by
    cases args with
    | nil => exact absurd rfl hne
    | cons a l => rfl
  refine ⟨?_, ?_, rfl⟩
  · by_cases hd : args.any isDangerousArg = true
    · exact ⟨_, validate_error_of_danger args repoPath false gitDirExists hd⟩
    · have hd2 : args.any isDangerousArg = false := by
        cases hx : args.any isDangerousArg with
        | false => rfl
        | true => exact absurd hx hd
      exact ⟨whitelistMsg (args.headD ""),
        validate_error_of_whitelist args repoPath gitDirExists hie hd2 hw⟩
  · intro hnd
    have hd2 : args.any isDangerousArg = false := by
      cases hx : args.any isDangerousArg with
      | false => rfl
      | true =>
          rw [List.any_eq_true] at hx
          obtain ⟨a, ha, hda⟩ := hx
          rw [hnd a ha] at hda
          exact absurd hda (by decide)
    constructor
    · exact validate_error_of_whitelist args repoPath gitDirExists hie hd2 hw
    · exact ⟨"Error: Command '".data, whitelistSuffix.data, by
        simp [whitelistMsg, string_data_append, List.append_assoc]⟩

/-- Witness for C2: the external vector with the single non-whitelisted
token push is rejected, and the internal commit vector reaches the
invoker. -/
theorem C2_witness :
    (∃ msg, execute (.arr ["push"]) "/repo" false true = .error msg) ∧
    execute (.arr ["commit", "-m", "fix"]) "/repo" true true =
      .ok (("--git-dir=" ++ NodePath.join2 "/repo" SHADOWGIT_DIR) ::
           ("--work-tree=" ++ "/repo") :: ["commit", "-m", "fix"]) := by
  have h := C2_whitelist_rejects "/repo" true ["push"] (by decide) (by decide)
  exact ⟨h.1, h.2.2⟩

/-- C3: every invocation that passes all validation hands the binary an
argument vector that begins with exactly the repository-location pointer
and the working-tree pointer, both derived only from the resolved
repository path, followed by the caller's tokens unchanged; when the
resolved path joins cleanly (no normalization effect), the first pointer
is literally the path, a separator, and the marker directory name. -/
theorem C3_argv_shape (c : Command) (repoPath : String) (isInternal gitDirExists : Bool)
    (argv : List String) (h : execute c repoPath isInternal gitDirExists = .ok argv) :
    argv = ("--git-dir=" ++ NodePath.join2 repoPath SHADOWGIT_DIR) ::
           ("--work-tree=" ++ repoPath) :: commandTokens c ∧
    (NodePath.join2 repoPath SHADOWGIT_DIR = repoPath ++ "/" ++ SHADOWGIT_DIR →
      argv = ("--git-dir=" ++ (repoPath ++ "/" ++ SHADOWGIT_DIR)) ::
             ("--work-tree=" ++ repoPath) :: commandTokens c) := by
  have hmain : argv = ("--git-dir=" ++ NodePath.join2 repoPath SHADOWGIT_DIR) ::
      ("--work-tree=" ++ repoPath) :: commandTokens c := by
    cases c with
    | arr a => exact validate_ok_shape a repoPath isInternal gitDirExists argv h
    | str str_cmd =>
        simp only [execute] at h
        split at h
        · exact Except.noConfusion h
        · exact validate_ok_shape (tokenize str_cmd) repoPath isInternal gitDirExists argv h
  exact ⟨hmain, fun hj => by rw [hmain, hj]⟩

/-- Witness for C3: a concrete accepted external invocation, at which
the join is clean concatenation. -/
theorem C3_witness :
    (["--git-dir=/home/u/proj/.shadowgit.git", "--work-tree=/home/u/proj", "log"] : List String) =
      ("--git-dir=" ++ ("/home/u/proj" ++ "/" ++ SHADOWGIT_DIR)) ::
      ("--work-tree=" ++ "/home/u/proj") :: commandTokens (.arr ["log"]) :=
  (C3_argv_shape (.arr ["log"]) "/home/u/proj" false true
      ["--git-dir=/home/u/proj/.shadowgit.git", "--work-tree=/home/u/proj", "log"] rfl).2 rfl

/-- C4 counterexample: TAB has code below 0x20, but the sanitizing
class excludes it, so a TAB between tokens splits them, whereas
tokenizing as if the byte were absent glues them into one token. -/
theorem C4_counterexample :
    (Char.ofNat 0x09).toNat < 0x20 ∧
    tokenize "log\t--oneline" = ["log", "--oneline"] ∧
    tokenize (specStrip "log\t--oneline") = ["log--oneline"] ∧
    tokenize "log\t--oneline" ≠ tokenize (specStrip "log\t--oneline") :=
  ⟨by decide, rfl, rfl, by decide⟩

/-- C4 as amended: the tokenizer removes every control character of the
fixed class 0x00-0x08, 0x0B, 0x0C, 0x0E-0x1F and 0x7F (that is, all
codes below 0x20 except TAB, LF and CR, plus DEL) before word-splitting,
so a string containing such a byte anywhere, inside or outside quotes,
tokenizes exactly as if that byte were absent. -/
theorem C4_stripped_controls_invisible (s₁ s₂ : String) (c : Char)
    (h : isStrippedControl c = true) :
    tokenize (s₁ ++ String.singleton c ++ s₂) = tokenize (s₁ ++ s₂) := by
  unfold tokenize
  have hsan : sanitize (s₁ ++ String.singleton c ++ s₂) = sanitize (s₁ ++ s₂) := by
    simp [sanitize, string_data_append, List.filter_append, String.singleton, h]
  rw [hsan]

/-- Witness for C4: an embedded NUL next to the oneline flag outside
quotes, and an embedded 0x01 inside a quoted span, are both invisible to
the tokenizer. -/
theorem C4_witness :
    isStrippedControl (Char.ofNat 0) = true ∧
    tokenize ("log " ++ String.singleton (Char.ofNat 0) ++ "--oneline") =
      tokenize ("log " ++ "--oneline") ∧
    tokenize ("log \"a" ++ String.singleton (Char.ofNat 1) ++ "b\"") =
      tokenize ("log \"a" ++ "b\"") :=
  ⟨by decide,
   C4_stripped_controls_invisible "log " "--oneline" (Char.ofNat 0) (by decide),
   C4_stripped_controls_invisible "log \"a" "b\"" (Char.ofNat 1) (by decide)⟩

/-- C7: tokenizing the external command string with a quoted span yields
exactly the three tokens: runs of unquoted whitespace separate tokens, a
double-quoted span keeps its interior whitespace in one token, and the
quote characters do not appear in the token. -/
theorem C7_tokenize_example :
    tokenize "log -5 \"release v1.0\"" = ["log", "-5", "release v1.0"] := rfl

/-- A string that starts with the two-character home marker and
separator also starts with the home marker alone. -/
theorem startsWith_tilde_of_tildeSlash (p : String) (h : jsStartsWith p "~/" = true) :
    jsStartsWith p "~" = true := by
  unfold jsStartsWith at h ⊢
  have d2 : "~/".data = ['~', '/'] := rfl
  have d1 : "~".data = ['~'] := rfl
  rw [d2] at h
  rw [d1]
  cases hd : p.data with
  | nil => rw [hd] at h; exact absurd h (by decide)
  | cons c t =>
      rw [hd] at h
      simp only [List.isPrefixOf, Bool.and_eq_true] at h ⊢
      exact ⟨h.1, trivial⟩

/-- The known-name branch's inline tilde handling equals the
specification's expansion rule: a leading marker is expanded only when
it is the whole string or is followed by a separator; otherwise (marker
absent, or marker followed by anything else) the configured path is
returned untouched. -/
theorem knownRepo_tilde_eq_spec (homeDir p : String) :
    (if jsStartsWith p "~" then
       if p == "~" then homeDir
       else if jsStartsWith p "~/" then NodePath.join2 homeDir (jsSliceFrom p 2)
       else p
     else p) = specExpandTilde homeDir p := by
  unfold specExpandTilde
  cases h1 : jsStartsWith p "~" with
  | true => rfl
  | false =>
      have h2 : (p == "~") = false := by
        cases hb : p == "~" with
        | false => rfl
        | true =>
            have hp : p = "~" := by simpa using hb
            subst hp
            exact absurd h1 (by decide)
      have h3 : jsStartsWith p "~/" = false := by
        cases hb : jsStartsWith p "~/" with
        | false => rfl
        | true => exact absurd (startsWith_tilde_of_tildeSlash p hb) (by simp [h1])
      simp [h2, h3]

/-- C5: when the input exactly (case-sensitively) matches a known
repository name, the resolver expands a leading home marker in the
configured path only when the marker is the whole string or is followed
by a separator, and returns the expanded path exactly when the
shadow-store marker directory exists inside it; otherwise it returns
none even though the name matched. -/
theorem C5_known_name_resolution (repos : List Repository) (homeDir : String)
    (fexists : String → Bool) (nm : String) (r : Repository)
    (hnm : nm ≠ "") (hfind : findRepository repos nm = some r) :
    resolveRepoPath repos homeDir fexists nm =
      (if fexists (NodePath.join2 (specExpandTilde homeDir r.path) SHADOWGIT_DIR) = true
       then some (specExpandTilde homeDir r.path) else none) := by
  have h0 : (nm == "") = false := by
    cases hb : nm == "" with
    | false => rfl
    | true => exact absurd (by simpa using hb) hnm
  simp only [resolveRepoPath, h0, Bool.false_eq_true, if_false, hfind]
  rw [knownRepo_tilde_eq_spec]

/-- Witness for C5 at the specification's example: snapshot app at
tilde-proj, home /home/u; with the marker on disk resolution yields
/home/u/proj, and with the marker absent it yields none. -/
theorem C5_witness :
    resolveRepoPath [⟨"app", "~/proj"⟩] "/home/u"
      (fun s => s == "/home/u/proj/.shadowgit.git") "app" = some "/home/u/proj" ∧
    resolveRepoPath [⟨"app", "~/proj"⟩] "/home/u" (fun _ => false) "app" = none := by
  constructor
  · have h := C5_known_name_resolution [⟨"app", "~/proj"⟩] "/home/u"
      (fun s => s == "/home/u/proj/.shadowgit.git") "app" ⟨"app", "~/proj"⟩ (by decide) rfl
    rw [h]; rfl
  · have h := C5_known_name_resolution [⟨"app", "~/proj"⟩] "/home/u"
      (fun _ => false) "app" ⟨"app", "~/proj"⟩ (by decide) rfl
    rw [h]; rfl

/-- C6: an input that matches no known repository name and is not
path-like (no leading slash, no leading home marker, no colon anywhere,
no leading double backslash) resolves to none whatever is on disk. -/
theorem C6_bare_token_never_path (repos : List Repository) (homeDir : String)
    (fexists : String → Bool) (s : String)
    (hfind : findRepository repos s = none)
    (h1 : jsStartsWith s "/" = false) (h2 : jsStartsWith s "~" = false)
    (h3 : jsIncludesChar s ':' = false) (h4 : jsStartsWith s "\\\\" = false) :
    resolveRepoPath repos homeDir fexists s = none := by
  cases h0 : (s == "") with
  | true => simp only [resolveRepoPath, h0, if_true]
  | false =>
      simp only [resolveRepoPath, h0, Bool.false_eq_true, if_false, hfind,
        h1, h2, h3, h4, Bool.or_self, Bool.or_false, Bool.false_or]

/-- Witness for C6: an empty snapshot and the bare token proj, with a
filesystem oracle that reports every path (so also a same-named marked
directory) as existing. -/
theorem C6_witness :
    resolveRepoPath [] "/home/u" (fun _ => true) "proj" = none :=
  C6_bare_token_never_path [] "/home/u" (fun _ => true) "proj"
    rfl (by decide) (by decide) (by decide) (by decide)

/-- A string whose character data starts with E keeps that first
character under append. -/
theorem head_some_E_of_append (a b : String) (h : a.data.head? = some 'E') :
    (a ++ b).data.head? = some 'E' := by
  rw [string_data_append]
  cases hd : a.data with
  | nil => rw [hd] at h; exact Option.noConfusion h
  | cons c t =>
      rw [hd] at h
      rw [List.cons_append]
      simpa using h

/-- Every classifier output starts with the character E (all four
branches render a message beginning with the word Error). -/
theorem classifyCaught_head (tm : Nat) (e : Caught) :
    (classifyCaught tm e).data.head? = some 'E' := by
  cases e with
  | nonObj s => exact head_some_E_of_append "Error: " s rfl
  | obj err =>
      simp only [classifyCaught]
      split
      · exact head_some_E_of_append _ _ (head_some_E_of_append _ _ rfl)
      · split
        · simp only [structuredMsg]
          exact head_some_E_of_append _ _ (head_some_E_of_append _ _
            (head_some_E_of_append _ _ (head_some_E_of_append _ _
              (head_some_E_of_append _ _ rfl))))
        · exact head_some_E_of_append _ _ rfl

/-- C8: for a validated invocation whose subprocess failure carries code
ETIMEDOUT or signal SIGTERM, the classifier stops at the timeout
category whatever the other failure fields hold, and the returned text
is the timeout message, which contains the configured timeout value in
milliseconds. -/
theorem C8_timeout_first (c : Command) (rp : String) (ii gd : Bool) (argv : List String)
    (tm : Nat) (e : ExecError)
    (hok : execute c rp ii gd = .ok argv)
    (h : e.code = some "ETIMEDOUT" ∨ e.signal = some "SIGTERM") :
    executeFull c rp ii gd (.err (.obj e)) tm = timeoutMsg tm ∧
    (toString tm).data <:+: (timeoutMsg tm).data := by
  constructor
  · have hb : (e.code == some "ETIMEDOUT" || e.signal == some "SIGTERM") = true := by
      rcases h with h | h <;> simp [h]
    simp only [executeFull, hok, classifyCaught, hb, if_true]
  · exact ⟨"Error: Command timed out after ".data, "ms.".data, by
      simp [timeoutMsg, string_data_append, List.append_assoc]⟩

/-- Witness for C8: a failure with code ETIMEDOUT that also carries
diagnostic-stream fields is still classified as a timeout, after a
validated external log invocation, with the value 10000 in the text. -/
theorem C8_witness :
    executeFull (.arr ["log"]) "/repo" false true
      (.err (.obj ⟨some "ETIMEDOUT", none, true, "boom", false, "", true, "failed", "obj"⟩))
      10000 = timeoutMsg 10000 ∧
    (toString 10000).data <:+: (timeoutMsg 10000).data :=
  C8_timeout_first (.arr ["log"]) "/repo" false true _ 10000
    ⟨some "ETIMEDOUT", none, true, "boom", false, "", true, "failed", "obj"⟩
    rfl (Or.inl rfl)

/-- C9: for a validated invocation, a successful subprocess outcome is
returned verbatim except that the empty output is rendered as the
explicit placeholder, the placeholder differs from the empty string, and
no classified failure ever renders as the placeholder, so an empty
success is distinguishable from both. -/
theorem C9_empty_success (c : Command) (rp : String) (ii gd : Bool) (argv : List String)
    (tm : Nat) (out : String) (hok : execute c rp ii gd = .ok argv) :
    executeFull c rp ii gd (.ok out) tm = (if out == "" then "(empty output)" else out) ∧
    ("(empty output)" : String) ≠ "" ∧
    (∀ e : Caught, executeFull c rp ii gd (.err e) tm ≠ "(empty output)") := by
  refine ⟨?_, by decide, ?_⟩
  · simp only [executeFull, hok, renderSuccess]
  · intro e hEq
    simp only [executeFull, hok] at hEq
    have hh := classifyCaught_head tm e
    rw [hEq] at hh
    exact absurd hh (by decide)

/-- Witness for C9: a validated external log invocation with empty
successful output renders as the placeholder. -/
theorem C9_witness :
    executeFull (.arr ["log"]) "/repo" false true (.ok "") 10000 =
      (if ("" : String) == "" then "(empty output)" else "") ∧
    ("(empty output)" : String) ≠ "" ∧
    (∀ e : Caught, executeFull (.arr ["log"]) "/repo" false true (.err e) 10000 ≠
      "(empty output)") :=
  C9_empty_success (.arr ["log"]) "/repo" false true _ 10000 "" rfl

/-- C10: the guards before the commit step test only the prefix
Error-colon; a structured process failure of the add step begins with
Error executing git command (no colon after Error), which does not match
that prefix, so the checkpoint flow still reaches the commit step. -/
theorem C10_structured_failure_reaches_commit (tm : Nat) (e : ExecError) (rp : String)
    (statusOutput commitOutput showOutput : String)
    (hnt : (e.code == some "ETIMEDOUT" || e.signal == some "SIGTERM") = false)
    (hs : (e.hasStderr || e.hasStdout || e.hasStatus) = true)
    (hst : noChangesGuard statusOutput = false) :
    jsStartsWith (executeFull (.arr ["add", "-A"]) rp true true (.err (.obj e)) tm)
      "Error executing git command:" = true ∧
    jsStartsWith (executeFull (.arr ["add", "-A"]) rp true true (.err (.obj e)) tm)
      "Error:" = false ∧
    reachesCommit (checkpointFlow statusOutput
      (executeFull (.arr ["add", "-A"]) rp true true (.err (.obj e)) tm)
      commitOutput showOutput) = true := by
  have hadd : executeFull (.arr ["add", "-A"]) rp true true (.err (.obj e)) tm =
      structuredMsg e := by
    show classifyCaught tm (.obj e) = structuredMsg e
    simp only [classifyCaught, hnt, hs, Bool.false_eq_true, if_false, if_true]
  have hpre : jsStartsWith (structuredMsg e) "Error:" = false := rfl
  have hpre2 : jsStartsWith (structuredMsg e) "Error executing git command:" = true := rfl
  refine ⟨by rw [hadd]; exact hpre2, by rw [hadd]; exact hpre, ?_⟩
  rw [hadd]
  simp only [checkpointFlow, hst, hpre, Bool.false_eq_true, if_false]
  cases hc : jsStartsWith commitOutput "Error:" <;> simp [reachesCommit, hc]

/-- Witness for C10: a concrete structured add failure (index lock held,
status present) after a status output reporting one modified file; the
flow reaches the commit step. -/
theorem C10_witness :
    jsStartsWith (executeFull (.arr ["add", "-A"]) "/repo" true true
      (.err (.obj ⟨none, none, true, "fatal: index lock", false, "", true, "Command failed", "err"⟩))
      10000) "Error executing git command:" = true ∧
    jsStartsWith (executeFull (.arr ["add", "-A"]) "/repo" true true
      (.err (.obj ⟨none, none, true, "fatal: index lock", false, "", true, "Command failed", "err"⟩))
      10000) "Error:" = false ∧
    reachesCommit (checkpointFlow "M file\n"
      (executeFull (.arr ["add", "-A"]) "/repo" true true
        (.err (.obj ⟨none, none, true, "fatal: index lock", false, "", true, "Command failed", "err"⟩))
        10000)
      "[main abc1234] msg" "showout") = true :=
  C10_structured_failure_reaches_commit 10000
    ⟨none, none, true, "fatal: index lock", false, "", true, "Command failed", "err"⟩
    "/repo" "M file\n" "[main abc1234] msg" "showout" rfl rfl rfl

end ShadowGit
